import Mathlib

/-!
Shallow embedding of the pyfedcamp reservation pipeline
(`src/pyfedcamp/reservations.py`) together with theorems that check the
natural-language specification of the repository against the code.

Modelling conventions:
* calendar dates are day numbers (`Int`, days since 1970-01-01); an
  unset date (pandas `NaT`, produced by `errors='coerce'`) is `none`;
* each exception the Python code can raise is a constructor of
  `PipelineError`, and fallible stages return `Except PipelineError`;
* the nondeterministic choices of the code (`random.sample`, the row
  typing done by the spreadsheet library) are explicit parameters.
-/

namespace Pyfedcamp

/-- Errors raised by the pipeline, one constructor per distinct raise
site or library exception reachable from `Reservations.__init__`. -/
inductive PipelineError where
  | emptyGrid          : PipelineError
  | headerNotFound     : PipelineError
  | privacyValidation  : PipelineError
  | nullDateExpansion  : PipelineError
  | emptyExpansion     : PipelineError
  | noPlacardRecords   : PipelineError
  deriving DecidableEq, Repr

/-! ### Name obfuscation check (`validate_name_format`) -/

/-- Character class `[A-Za-z]` of the obfuscation pattern. -/
def isAsciiLetter (c : Char) : Bool :=
  (('A' ≤ c) && (c ≤ 'Z')) || (('a' ≤ c) && (c ≤ 'z'))

/-- Tail of the obfuscation pattern after the leading letters and dots:
the literal comma and space, the single-letter class `[A-Za-z]`, and
`\.*$` (dots up to the end of the string). -/
def matchTail (l : List Char) : Bool :=
  match l with
  | c1 :: c2 :: c :: rest =>
      c1 == ',' && c2 == ' ' && isAsciiLetter c && rest.all (fun x => x == '.')
  | _ => false

/-- Operational translation of
`re.match(r"^[A-Za-z]+\.*?, [A-Za-z]\.*$", name)` from
`validate_name_format` in `reservations.py`.  The character classes of
the pattern are pairwise disjoint (letters, dot, comma, space), so the
language of the anchored regex is decided by one deterministic scan:
one or more letters, any number of dots, then the tail `, [A-Za-z]\.*`. -/
def matchNamePattern (cs : List Char) : Bool :=
  if (cs.takeWhile isAsciiLetter).isEmpty then false
  else matchTail ((cs.dropWhile isAsciiLetter).dropWhile (fun c => c == '.'))

/-- `validate_name_format` of `reservations.py`. -/
def validate_name_format (name : String) : Bool :=
  matchNamePattern name.data

/-- Declarative reading of the language of the regex
`^[A-Za-z]+\.*?, [A-Za-z]\.*$`: one or more letters, optional dots, a
comma and a space, a single letter, optional dots. -/
def ObfuscatedName (s : String) : Prop :=
  ∃ (a b d : List Char) (c : Char),
    s.data = a ++ b ++ ',' :: ' ' :: c :: d ∧
    a ≠ [] ∧ (∀ x ∈ a, isAsciiLetter x = true) ∧
    (∀ x ∈ b, x = '.') ∧ isAsciiLetter c = true ∧ (∀ x ∈ d, x = '.')

/-- Tail of the shape claimed by the specification: comma, space, then
one or more letters and optional trailing dots. -/
def claimTail (l : List Char) : Bool :=
  match l with
  | c1 :: c2 :: rest =>
      c1 == ',' && c2 == ' ' && !(rest.takeWhile isAsciiLetter).isEmpty &&
        (rest.dropWhile isAsciiLetter).all (fun x => x == '.')
  | _ => false

/-- The acceptance shape stated by the specification for the PII guard:
one or more letters, optional trailing dots, a comma and a space, one
or more letters, optional trailing dots.  This definition follows the
words of the spec (not the code) so that it can be compared with
`validate_name_format`. -/
def claimNameShape (name : String) : Bool :=
  if (name.data.takeWhile isAsciiLetter).isEmpty then false
  else claimTail ((name.data.dropWhile isAsciiLetter).dropWhile (fun c => c == '.'))

/-! Helper lemmas about `takeWhile` and `dropWhile`. -/

theorem takeWhile_append_of_all {α : Type} {p : α → Bool} {a l : List α}
    (h : ∀ x ∈ a, p x = true) :
    (a ++ l).takeWhile p = a ++ l.takeWhile p := by
  induction a with
  | nil => simp
  | cons x xs ih =>
    have hx : p x = true := h x (by simp)
    simp only [List.cons_append, List.takeWhile_cons, hx, if_true]
    rw [ih (fun y hy => h y (by simp [hy]))]

theorem dropWhile_append_of_all {α : Type} {p : α → Bool} {a l : List α}
    (h : ∀ x ∈ a, p x = true) :
    (a ++ l).dropWhile p = l.dropWhile p := by
  induction a with
  | nil => simp
  | cons x xs ih =>
    have hx : p x = true := h x (by simp)
    simp only [List.cons_append, List.dropWhile_cons, hx, if_true]
    exact ih (fun y hy => h y (by simp [hy]))

theorem takeWhile_of_head_neg {α : Type} {p : α → Bool} {x : α} {l : List α}
    (h : p x = false) : (x :: l).takeWhile p = [] := by
  simp [List.takeWhile_cons, h]

theorem dropWhile_of_head_neg {α : Type} {p : α → Bool} {x : α} {l : List α}
    (h : p x = false) : (x :: l).dropWhile p = x :: l := by
  simp [List.dropWhile_cons, h]

theorem matchTail_iff (l : List Char) :
    matchTail l = true ↔ ∃ (c : Char) (rest : List Char),
      l = ',' :: ' ' :: c :: rest ∧ isAsciiLetter c = true ∧
        (∀ x ∈ rest, x = '.') := by
  match l with
  | [] => simp [matchTail]
  | [c1] => simp [matchTail]
  | [c1, c2] => simp [matchTail]
  | c1 :: c2 :: c :: rest =>
    simp only [matchTail, Bool.and_eq_true, beq_iff_eq, List.all_eq_true,
      List.cons.injEq]
    constructor
    · rintro ⟨⟨⟨h1, h2⟩, hc⟩, hrest⟩
      exact ⟨c, rest, ⟨h1, h2, rfl, rfl⟩, hc, fun x hx => by simpa using hrest x hx⟩
    · rintro ⟨c', rest', ⟨h1, h2, h3, h4⟩, hc, hrest⟩
      subst h1; subst h2; subst h3; subst h4
      exact ⟨⟨⟨rfl, rfl⟩, hc⟩, fun x hx => by simpa using hrest x hx⟩

/-- Correctness of the deterministic scan: `matchNamePattern` decides
exactly the declarative obfuscation language. -/
theorem matchNamePattern_iff (cs : List Char) :
    matchNamePattern cs = true ↔
      ∃ (a b d : List Char) (c : Char),
        cs = a ++ b ++ ',' :: ' ' :: c :: d ∧
        a ≠ [] ∧ (∀ x ∈ a, isAsciiLetter x = true) ∧
        (∀ x ∈ b, x = '.') ∧ isAsciiLetter c = true ∧ (∀ x ∈ d, x = '.') := by
  constructor
  · intro h
    unfold matchNamePattern at h
    cases he : (cs.takeWhile isAsciiLetter).isEmpty with
    | true => rw [he] at h; simp at h
    | false =>
      rw [he] at h
      simp only [Bool.false_eq_true, if_false] at h
      obtain ⟨c, rest, heq, hc, hrest⟩ := (matchTail_iff _).mp h
      refine ⟨cs.takeWhile isAsciiLetter,
        (cs.dropWhile isAsciiLetter).takeWhile (fun c => c == '.'), rest, c,
        ?_, ?_, ?_, ?_, hc, hrest⟩
      · have h1 : cs.takeWhile isAsciiLetter ++ cs.dropWhile isAsciiLetter = cs :=
          List.takeWhile_append_dropWhile _ _
        have h2 : (cs.dropWhile isAsciiLetter).takeWhile (fun c => c == '.') ++
            (cs.dropWhile isAsciiLetter).dropWhile (fun c => c == '.') =
            cs.dropWhile isAsciiLetter :=
          List.takeWhile_append_dropWhile _ _
        rw [List.append_assoc, ← heq, h2, h1]
      · intro hcon
        rw [hcon] at he
        simp at he
      · intro x hx
        exact List.mem_takeWhile_imp hx
      · intro x hx
        have := List.mem_takeWhile_imp (p := fun c => c == '.') hx
        simpa using this
  · rintro ⟨a, b, d, c, hcs, hne, ha, hb, hc, hd⟩
    unfold matchNamePattern
    have hdots : ∀ x ∈ b, (fun c => c == '.') x = true := by
      intro x hx; simp [hb x hx]
    have htake : cs.takeWhile isAsciiLetter = a := by
      rw [hcs, List.append_assoc, takeWhile_append_of_all ha]
      match hbm : b with
      | [] =>
        simp [takeWhile_of_head_neg (p := isAsciiLetter) (x := ',') (by decide)]
      | x :: xs =>
        have hx : x = '.' := hb x (by simp [hbm])
        subst hx
        simp [takeWhile_of_head_neg (p := isAsciiLetter) (x := '.') (by decide)]
    have hdrop : cs.dropWhile isAsciiLetter = b ++ ',' :: ' ' :: c :: d := by
      rw [hcs, List.append_assoc, dropWhile_append_of_all ha]
      match hbm : b with
      | [] =>
        simp [dropWhile_of_head_neg (p := isAsciiLetter) (x := ',') (by decide)]
      | x :: xs =>
        have hx : x = '.' := hb x (by simp [hbm])
        subst hx
        simp [dropWhile_of_head_neg (p := isAsciiLetter) (x := '.') (by decide)]
    rw [htake, hdrop]
    have hne2 : a.isEmpty = false := by
      match a with
      | [] => exact absurd rfl hne
      | x :: xs => rfl
    rw [hne2]
    simp only [Bool.false_eq_true, if_false]
    rw [dropWhile_append_of_all hdots,
        dropWhile_of_head_neg (p := fun c => c == '.') (x := ',') (by decide)]
    simp only [matchTail, Bool.and_eq_true, beq_iff_eq, List.all_eq_true]
    refine ⟨⟨⟨trivial, trivial⟩, hc⟩, fun x hx => ?_⟩
    simp [hd x hx]

/-- `validate_name_format` accepts exactly the obfuscated-name shape. -/
theorem validate_name_format_iff (s : String) :
    validate_name_format s = true ↔ ObfuscatedName s :=
  matchNamePattern_iff s.data

/-! ### The PII guard (`process_spreadsheet`, lines 69-75) -/

/-- `invalid_names` (reservations.py line 72). -/
def invalid_names (sampled : List String) : List String :=
  sampled.filter (fun n => !(validate_name_format n))

/-- The PII gate of `process_spreadsheet` (lines 69-75): the ingestion
fails iff some sampled name does not match the obfuscation pattern. -/
def piiCheck (sampled : List String) : Except PipelineError Unit :=
  if invalid_names sampled = [] then Except.ok ()
  else Except.error PipelineError.privacyValidation

/-- `random.sample(list(df['Primary Occupant Name']), min(10, len(df)))`:
the sample is described by the list of chosen row positions, which are
pairwise distinct, in range, and of the prescribed size. -/
def ValidSample (names : List String) (idxs : List Nat) : Prop :=
  idxs.Nodup ∧ (∀ i ∈ idxs, i < names.length) ∧
    idxs.length = min 10 names.length

/-- The sampled values of the name column. -/
def sampledNames (names : List String) (idxs : List Nat) : List String :=
  idxs.map (fun i => names.getD i "")

/-! ### Header location (`process_spreadsheet`, lines 43-64) -/

/-- The untyped cell grid read by `pd.read_excel(..., header=None)`. -/
abbrev Grid := List (List String)

/-- The ten required column labels (reservations.py lines 43-54). -/
def required_columns : List String :=
  ["Loop", "Site #", "Reservation #", "Reservation Status", "Arrival Date",
   "Departure Date", "Primary Occupant Name", "# of Occupants", "Equipment",
   "Nights/ Days"]

/-- `all(col in row.values for col in required_columns)`. -/
def rowHasAllRequired (row : List String) : Bool :=
  required_columns.all (fun c => row.contains c)

/-- Position of the first row satisfying `rowHasAllRequired`, if any. -/
def header_row_index_aux : Grid → Option Nat
  | [] => none
  | row :: rest =>
    if rowHasAllRequired row then some 0
    else (header_row_index_aux rest).map (fun i => i + 1)

/-- `df.apply(...).idxmax()`: the position of the first matching row,
and 0 when no row matches (idxmax of an all-False boolean series). -/
def header_row_index (g : Grid) : Nat :=
  (header_row_index_aux g).getD 0

/-- Header detection (reservations.py lines 56-64): `idxmax` on an
empty frame raises, a header index of 0 raises the schema error, and
otherwise the rows strictly after the header row become the working
row set. -/
def locate_header (g : Grid) : Except PipelineError (List (List String)) :=
  if g.isEmpty then Except.error PipelineError.emptyGrid
  else if header_row_index g = 0 then Except.error PipelineError.headerNotFound
  else Except.ok (g.drop (header_row_index g + 1))

/-! ### Row normalization (`process_spreadsheet`, lines 77-128) -/

/-- `x.split(',')` on the character list: split at every comma.  On an
empty input this yields one empty item, never an empty list. -/
def splitOnCommaChars : List Char → List (List Char)
  | [] => [[]]
  | c :: cs =>
    let r := splitOnCommaChars cs
    if c = ',' then [] :: r
    else (c :: r.headD []) :: r.tail

/-- `item.strip()`: whitespace removed from both ends. -/
def trimChars (cs : List Char) : List Char :=
  ((cs.dropWhile Char.isWhitespace).reverse.dropWhile Char.isWhitespace).reverse

/-- Removal of a trailing parenthesized quantity,
`re.sub(r'\s*\(\d+\)$', '', item)`, written on the reversed character
list: a closing parenthesis, one or more digits, an opening
parenthesis and any whitespace before it are stripped from the end. -/
def stripQuantitySuffix (s : List Char) : List Char :=
  match s.reverse with
  | ')' :: rest =>
    if (rest.takeWhile Char.isDigit).isEmpty then s
    else
      match rest.dropWhile Char.isDigit with
      | '(' :: rest3 => (rest3.dropWhile Char.isWhitespace).reverse
      | _ => s
  | _ => s

/-- `x.split(',')` followed by `item.strip()` and the quantity-suffix
removal (reservations.py lines 92-94). -/
def equipmentList (x : String) : List (List Char) :=
  (splitOnCommaChars x.data).map (fun item => stripQuantitySuffix (trimChars item))

/-- `item.lower() in ['tent', 'small tent']`. -/
def isTentItem (item : List Char) : Bool :=
  item.map Char.toLower == "tent".data || item.map Char.toLower == "small tent".data

/-- The tent / RV split (reservations.py lines 97-99):
`'tent' if any(item.lower() in ['tent', 'small tent'] ...) else 'RV'`. -/
def camperFootprint (equipment : List (List Char)) : String :=
  if equipment.any isTentItem then "tent" else "RV"

/-- `df['Reservation Status'].isin(['CHECKED_IN', 'CHECKED_OUT'])`. -/
def isObserved (status : String) : Bool :=
  status == "CHECKED_IN" || status == "CHECKED_OUT"

/-- `df['Reservation Status'].isin(['CHECKED_IN', 'CHECKED_OUT', 'RESERVED'])`. -/
def isOccupied (status : String) : Bool :=
  status == "CHECKED_IN" || status == "CHECKED_OUT" || status == "RESERVED"

/-- One typed working row as handed to the normalizer: the values of
the required columns after the library-level cell decoding.  Dates are
already `to_datetime(..., errors='coerce')`-coerced (`none` = `NaT`)
and raw numeric fields `to_numeric(..., errors='coerce')`-coerced
(`none` = `NaN`). -/
structure InputRow where
  siteNumber : String
  reservationNum : String
  reservationStatus : String
  arrivalDate : Option Int
  departureDate : Option Int
  primaryOccupantName : String
  occupantsRaw : Option Int
  equipment : String
  nightsDaysRaw : Option Int
  deriving DecidableEq, Repr

/-- The canonical reservation row kept in `self.reservations`
(the `core_attributes` of reservations.py lines 112-128, restricted to
the fields the downstream stages read). -/
structure Reservation where
  siteNumber : String
  arrivalDate : Option Int
  departureDate : Option Int
  camperFootprint : String
  observed : Bool
  occupied : Bool
  overnights : Int
  occupants : Int
  primaryOccupantName : String
  deriving DecidableEq, Repr

/-- The per-row normalization of `process_spreadsheet`
(reservations.py lines 77-128); `fillna(0)` turns an unparseable
numeric field into 0. -/
def normalizeRow (r : InputRow) : Reservation :=
  { siteNumber := r.siteNumber
    arrivalDate := r.arrivalDate
    departureDate := r.departureDate
    camperFootprint := camperFootprint (equipmentList r.equipment)
    observed := isObserved r.reservationStatus
    occupied := isOccupied r.reservationStatus
    overnights := r.nightsDaysRaw.getD 0
    occupants := r.occupantsRaw.getD 0
    primaryOccupantName := r.primaryOccupantName }

/-! ### Night expansion (`get_occupied_overnights`, lines 130-158) -/

/-- One row of the per-night fact table. -/
structure OccupiedNight where
  occupiedDate : Int
  siteNumber : String
  camperFootprint : String
  occupants : Int
  duration : String
  deriving DecidableEq, Repr

/-- Loop body of `get_occupied_overnights` (lines 134-147) for one
occupied reservation: `pd.date_range(arrival, departure - 1 day)`
enumerates the dates of `[arrival, departure)` (empty when
`departure <= arrival`), and `pd.date_range` raises a ValueError when
either endpoint is `NaT`. -/
def expandReservation (r : Reservation) : Except PipelineError (List OccupiedNight) :=
  match r.arrivalDate, r.departureDate with
  | some a, some d =>
    let nights : Int := d - a
    Except.ok ((List.range (d - a).toNat).map (fun (i : Nat) =>
      { occupiedDate := a + (i : Int)
        siteNumber := r.siteNumber
        camperFootprint := r.camperFootprint
        occupants := r.occupants
        duration :=
          if nights = 1 then "single night"
          else if i = 0 then "first night"
          else "continuing night" }))
  | _, _ => Except.error PipelineError.nullDateExpansion

/-- The expansion loop of `get_occupied_overnights`, row by row in row
order; the first reservation whose expansion raises aborts the loop. -/
def expandAll : List Reservation → Except PipelineError (List OccupiedNight)
  | [] => Except.ok []
  | r :: rs =>
    match expandReservation r with
    | Except.error e => Except.error e
    | Except.ok ns =>
      match expandAll rs with
      | Except.error e => Except.error e
      | Except.ok rest => Except.ok (ns ++ rest)

/-- `get_occupied_overnights` (lines 130-158): expand every occupied
reservation in row order; with no expanded rows at all the column
selection `pd.DataFrame([])[[...]]` raises a KeyError. -/
def get_occupied_overnights (rs : List Reservation) :
    Except PipelineError (List OccupiedNight) :=
  match expandAll (rs.filter (fun r => r.occupied)) with
  | Except.error e => Except.error e
  | Except.ok nights =>
    if nights.isEmpty then Except.error PipelineError.emptyExpansion
    else Except.ok nights

/-! ### Calendar helpers (`Series.dt.isocalendar().week`) -/

/-- Civil year of a day number (days since 1970-01-01), by the standard
days-to-civil conversion on the proleptic Gregorian calendar. -/
def civilYear (z0 : Int) : Int :=
  let z := z0 + 719468
  let era : Int := (if 0 ≤ z then z else z - 146096) / 146097
  let doe : Int := z - era * 146097
  let yoe : Int := (doe - doe / 1460 + doe / 36524 - doe / 146096) / 365
  let y : Int := yoe + era * 400
  let doy : Int := doe - (365 * yoe + yoe / 4 - yoe / 100)
  let mp : Int := (5 * doy + 2) / 153
  let m : Int := if mp < 10 then mp + 3 else mp - 9
  if m ≤ 2 then y + 1 else y

/-- Day number of January 1 of year `y` (the civil-to-days conversion
at month 1, day 1; January has shifted month index 10). -/
def jan1 (y : Int) : Int :=
  let y1 := y - 1
  let era : Int := (if 0 ≤ y1 then y1 else y1 - 399) / 400
  let yoe : Int := y1 - era * 400
  let doe : Int := yoe * 365 + yoe / 4 - yoe / 100 + 306
  era * 146097 + doe - 719468

/-- Monday-based weekday (0 = Monday .. 6 = Sunday); day 0
(1970-01-01) is a Thursday. -/
def weekdayMon (d : Int) : Int := (d + 3) % 7

/-- ISO-8601 week number: the week of the Thursday of the date's
Monday-based week, counted from January 1 of that Thursday's year. -/
def isoWeek (d : Int) : Nat :=
  let th := d - weekdayMon d + 3
  ((th - jan1 (civilYear th)) / 7 + 1).toNat

/-! ### Daily aggregation (`summarize_reservations`, lines 160-193) -/

/-- One row of `daily_reservation_summary`.  An `Option` category field
is `none` exactly when pandas produced no column for that category
value at all (see `summarize_reservations`). -/
structure DailySummary where
  occupiedDate : Int
  total_sites : Nat
  total_occupants : Int
  rv_sites : Option Nat
  tent_sites : Option Nat
  first_night_occupants : Option Int
  single_night_occupants : Option Int
  continuing_night_occupants : Option Int
  week : Nat
  deriving DecidableEq, Repr

/-- Distinct values in ascending order (`groupby` sorts its keys). -/
def sortedKeys (l : List Int) : List Int :=
  List.insertionSort (fun a b => a ≤ b) l.dedup

/-- `nunique`: the number of distinct values. -/
def nunique (l : List String) : Nat := l.dedup.length

/-- `summarize_reservations` (lines 160-193).  The `unstack` and
`pivot_table` steps only create a column for a category value that
occurs somewhere in the table; a category absent from the whole table
yields no column at all (modelled as `none` for every row), while a
category present elsewhere fills as 0 on a date without it
(`fill_value=0`, then a left merge that always finds the date). -/
def buildDailySummary (ns : List OccupiedNight) (dt : Int) : DailySummary :=
  let hasTent := ns.any (fun n => n.camperFootprint == "tent")
  let hasRV := ns.any (fun n => n.camperFootprint == "RV")
  let hasFirst := ns.any (fun n => n.duration == "first night")
  let hasSingle := ns.any (fun n => n.duration == "single night")
  let hasCont := ns.any (fun n => n.duration == "continuing night")
  let dayRows := ns.filter (fun n => n.occupiedDate == dt)
  { occupiedDate := dt
    total_sites := nunique (dayRows.map (fun n => n.siteNumber))
    total_occupants := (dayRows.map (fun n => n.occupants)).sum
    rv_sites := if hasRV then
        some (nunique ((dayRows.filter
          (fun n => n.camperFootprint == "RV")).map (fun n => n.siteNumber)))
      else none
    tent_sites := if hasTent then
        some (nunique ((dayRows.filter
          (fun n => n.camperFootprint == "tent")).map (fun n => n.siteNumber)))
      else none
    first_night_occupants := if hasFirst then
        some (((dayRows.filter
          (fun n => n.duration == "first night")).map (fun n => n.occupants)).sum)
      else none
    single_night_occupants := if hasSingle then
        some (((dayRows.filter
          (fun n => n.duration == "single night")).map (fun n => n.occupants)).sum)
      else none
    continuing_night_occupants := if hasCont then
        some (((dayRows.filter
          (fun n => n.duration == "continuing night")).map (fun n => n.occupants)).sum)
      else none
    week := isoWeek dt }

/-- The per-date aggregation itself: one `DailySummary` row per
distinct date, in ascending date order. -/
def summarize_reservations (ns : List OccupiedNight) : List DailySummary :=
  (sortedKeys (ns.map (fun n => n.occupiedDate))).map (buildDailySummary ns)

/-! ### Busiest-day ranking (`busiest_day_of_week`, lines 345-362) -/

/-- One row of `busiest_days`. -/
structure BusiestDay where
  week : Nat
  occupiedDate : Int
  total_occupants : Int
  first_night_occupants : Option Int
  single_night_occupants : Option Int
  continuing_night_occupants : Option Int
  weighted_occupants : Int
  deriving DecidableEq, Repr

/-- `weighted_occupants` (lines 353-357); `df.get(col, 0)` reads 0 when
the column is absent. -/
def weightedOccupants (wf ws wc : Int) (r : DailySummary) : Int :=
  wf * r.first_night_occupants.getD 0 + ws * r.single_night_occupants.getD 0 +
    wc * r.continuing_night_occupants.getD 0

/-- `idxmax` within one group: the first element attaining the maximal
value of `f`. -/
def argmaxFirst {α : Type} (f : α → Int) : List α → Option α
  | [] => none
  | x :: xs =>
    match argmaxFirst f xs with
    | none => some x
    | some y => if f x < f y then some y else some x

/-- Distinct naturals in ascending order. -/
def sortedKeysNat (l : List Nat) : List Nat :=
  List.insertionSort (fun a b => a ≤ b) l.dedup

/-- `busiest_day_of_week` (lines 345-362): per ISO week, the first row
attaining the maximal weighted score, the result sorted by week. -/
def busiest_day_of_week (wf ws wc : Int) (summary : List DailySummary) :
    List BusiestDay :=
  (sortedKeysNat (summary.map (fun r => r.week))).filterMap (fun w =>
    (argmaxFirst (weightedOccupants wf ws wc)
        (summary.filter (fun r => r.week == w))).map (fun r =>
      { week := r.week
        occupiedDate := r.occupiedDate
        total_occupants := r.total_occupants
        first_night_occupants := r.first_night_occupants
        single_night_occupants := r.single_night_occupants
        continuing_night_occupants := r.continuing_night_occupants
        weighted_occupants := weightedOccupants wf ws wc r }))

/-! ### The constructor (`Reservations.__init__`, lines 20-32) -/

/-- The attributes `__init__` can set, each `none` until its stage
stores it (`original_data` is set before the PII gate fires). -/
structure ResState where
  original_data : Option (List InputRow)
  reservations : Option (List Reservation)
  occupied_reservations_by_day : Option (List OccupiedNight)
  daily_reservation_summary : Option (List DailySummary)
  busiest_days : Option (List BusiestDay)
  deriving Repr

/-- The state of a freshly constructed object. -/
def initState : ResState := ⟨none, none, none, none, none⟩

/-- Continuation of `__init__` after the PII gate has passed:
`get_occupied_overnights`, `summarize_reservations` and
`busiest_day_of_week` run in order; a raise leaves the attributes set
so far. -/
def initAfterPii (rows : List InputRow) : ResState × Option PipelineError :=
  match get_occupied_overnights (rows.map normalizeRow) with
  | Except.error e =>
    ({ initState with
        original_data := some rows
        reservations := some (rows.map normalizeRow) }, some e)
  | Except.ok ns =>
    ({ original_data := some rows
       reservations := some (rows.map normalizeRow)
       occupied_reservations_by_day := some ns
       daily_reservation_summary := some (summarize_reservations ns)
       busiest_days := some (busiest_day_of_week 3 2 1
         (summarize_reservations ns)) }, none)

/-- Continuation of `__init__` after the header has been located:
`original_data` is stored, then the PII gate runs. -/
def initAfterHeader (rows : List InputRow) (sampled : List String) :
    ResState × Option PipelineError :=
  match piiCheck sampled with
  | Except.error e =>
    ({ initState with original_data := some rows }, some e)
  | Except.ok _ => initAfterPii rows

/-- `Reservations.__init__` as a state machine over the attributes the
constructor sets: each stage either raises, leaving exactly the
attributes set so far, or stores its table and continues.  `typeRows`
stands for the library-level decoding of the raw working rows into
typed rows and `sampled` for the random name sample. -/
def reservationsInit (g : Grid) (typeRows : List (List String) → List InputRow)
    (sampled : List String) : ResState × Option PipelineError :=
  match locate_header g with
  | Except.error e => (initState, some e)
  | Except.ok rawRows => initAfterHeader (typeRows rawRows) sampled

/-- The guard of `Reservations.build_placards` (lines 221-222): an
empty eligible record set raises instead of emitting an empty
document. -/
def placardGate {α : Type} (placard_records : List α) :
    Except PipelineError Unit :=
  if placard_records.isEmpty then Except.error PipelineError.noPlacardRecords
  else Except.ok ()

/-! ### Claim C1: the PII guard and the obfuscation pattern -/

/-- Claim C1 as stated is false: the claimed acceptance shape allows
one or more letters after the comma and the space, but the code's
pattern `^[A-Za-z]+\.*?, [A-Za-z]\.*$` allows exactly one letter
there, so the guard rejects the value "Johnson, Ma" even though it has
the claimed shape. -/
theorem c1_name_shape_counterexample :
    claimNameShape "Johnson, Ma" = true ∧
      validate_name_format "Johnson, Ma" = false := by
  constructor <;> decide

/-- Claim C1 (amended): the PII guard passes iff every sampled value
matches the pattern, a sample with at most ten rows covers the whole
name column, and the pattern accepts a value iff it consists of one or
more letters, optional trailing dots, a comma and a space, exactly one
letter and optional trailing dots; in particular "Johnson, M" is
accepted and "John Johnson" causes the privacy-validation error. -/
theorem c1_pii_guard (names : List String) (idxs : List Nat)
    (hs : ValidSample names idxs) :
    (piiCheck (sampledNames names idxs) = Except.ok () ↔
      ∀ n ∈ sampledNames names idxs, validate_name_format n = true)
    ∧ (names.length ≤ 10 → ∀ n ∈ names, n ∈ sampledNames names idxs)
    ∧ (∀ s, validate_name_format s = true ↔ ObfuscatedName s)
    ∧ validate_name_format "Johnson, M" = true
    ∧ piiCheck ["John Johnson"] =
        Except.error PipelineError.privacyValidation := by
  obtain ⟨hnd, hrange, hlen⟩ := hs
  have key : invalid_names (sampledNames names idxs) = [] ↔
      ∀ n ∈ sampledNames names idxs, validate_name_format n = true := by
    unfold invalid_names
    rw [List.filter_eq_nil_iff]
    constructor
    · intro h n hn
      have := h n hn
      simpa using this
    · intro h n hn
      simp [h n hn]
  refine ⟨?_, ?_, validate_name_format_iff, by decide, by rfl⟩
  · constructor
    · intro h
      apply key.mp
      by_contra hf
      unfold piiCheck at h
      rw [if_neg hf] at h
      exact Except.noConfusion h
    · intro h
      unfold piiCheck
      rw [if_pos (key.mpr h)]
  · intro hle n hn
    have hmin : min 10 names.length = names.length := Nat.min_eq_right hle
    rw [hmin] at hlen
    have hall : ∀ j, j < names.length → j ∈ idxs := by
      intro j hj
      have hsub : idxs.toFinset ⊆ Finset.range names.length := by
        intro i hi
        rw [List.mem_toFinset] at hi
        exact Finset.mem_range.mpr (hrange i hi)
      have hcard : idxs.toFinset.card = names.length := by
        rw [List.toFinset_card_of_nodup hnd, hlen]
      have hfin : idxs.toFinset = Finset.range names.length :=
        Finset.eq_of_subset_of_card_le hsub (by simp [hcard])
      have hjmem : j ∈ idxs.toFinset := hfin ▸ Finset.mem_range.mpr hj
      exact List.mem_toFinset.mp hjmem
    obtain ⟨⟨j, hj⟩, hget⟩ := List.mem_iff_get.mp hn
    have hgd : names.getD j "" = n := by
      rw [List.getD_eq_getElem names "" hj]
      simpa using hget
    exact List.mem_map.mpr ⟨j, hall j hj, hgd⟩

/-- Witness for `c1_pii_guard` at a concrete two-name column sampled in
full. -/
theorem c1_pii_guard_witness :
    ValidSample ["Smith, J.", "Lee, K"] [0, 1] ∧
      ((piiCheck (sampledNames ["Smith, J.", "Lee, K"] [0, 1]) =
          Except.ok () ↔
        ∀ n ∈ sampledNames ["Smith, J.", "Lee, K"] [0, 1],
          validate_name_format n = true)
      ∧ (["Smith, J.", "Lee, K"].length ≤ 10 →
          ∀ n ∈ ["Smith, J.", "Lee, K"],
            n ∈ sampledNames ["Smith, J.", "Lee, K"] [0, 1])
      ∧ (∀ s, validate_name_format s = true ↔ ObfuscatedName s)
      ∧ validate_name_format "Johnson, M" = true
      ∧ piiCheck ["John Johnson"] =
          Except.error PipelineError.privacyValidation) :=
  ⟨⟨by decide, by decide, by decide⟩,
    c1_pii_guard ["Smith, J.", "Lee, K"] [0, 1]
      ⟨by decide, by decide, by decide⟩⟩

/-! ### Claim C2: the camper footprint -/

theorem splitOnCommaChars_ne_nil (cs : List Char) : splitOnCommaChars cs ≠ [] := by
  cases cs with
  | nil => simp [splitOnCommaChars]
  | cons c rest =>
    unfold splitOnCommaChars
    by_cases h : c = ',' <;> simp [h]

/-- The input row of the C2 counterexample: a RESERVED row whose
equipment field is blank. -/
def blankEquipmentRow : InputRow :=
  { siteNumber := "A1", reservationNum := "123456789",
    reservationStatus := "RESERVED", arrivalDate := some 20000,
    departureDate := some 20001, primaryOccupantName := "Smith, J.",
    occupantsRaw := some 2, equipment := "", nightsDaysRaw := some 1 }

/-- Claim C2 as stated is false: a blank equipment field does not
yield the category "unknown"; the split of a blank field produces one
empty item, so the normalizer classifies the row as "RV", and no row
is ever classified "unknown". -/
theorem c2_counterexample :
    (normalizeRow blankEquipmentRow).camperFootprint = "RV" ∧
      (normalizeRow blankEquipmentRow).camperFootprint ≠ "unknown" := by
  constructor <;> decide

/-- Claim C2 (amended): every normalized row's footprint is "tent" or
"RV" and never "unknown"; it is "tent" iff some parsed equipment item
lowercases to "tent" or "small tent"; the parsed equipment list is
never empty (splitting a blank field yields one empty item), and a
blank equipment field yields "RV" without failing. -/
theorem c2_camper_footprint (r : InputRow) :
    ((normalizeRow r).camperFootprint = "tent" ∨
      (normalizeRow r).camperFootprint = "RV")
    ∧ (normalizeRow r).camperFootprint ≠ "unknown"
    ∧ ((normalizeRow r).camperFootprint = "tent" ↔
        ∃ item ∈ equipmentList r.equipment,
          item.map Char.toLower = "tent".data ∨
            item.map Char.toLower = "small tent".data)
    ∧ equipmentList r.equipment ≠ []
    ∧ (r.equipment = "" → (normalizeRow r).camperFootprint = "RV") := by
  have hcf : (normalizeRow r).camperFootprint =
      camperFootprint (equipmentList r.equipment) := rfl
  have hne : equipmentList r.equipment ≠ [] := by
    unfold equipmentList
    intro hcon
    exact splitOnCommaChars_ne_nil r.equipment.data (List.map_eq_nil_iff.mp hcon)
  have hblank : r.equipment = "" → (normalizeRow r).camperFootprint = "RV" := by
    intro h
    rw [hcf, h]
    decide
  by_cases hA : (equipmentList r.equipment).any isTentItem
  · have hval : camperFootprint (equipmentList r.equipment) = "tent" := by
      unfold camperFootprint
      rw [if_pos hA]
    refine ⟨Or.inl (hcf.trans hval), by rw [hcf, hval]; decide, ?_, hne, hblank⟩
    rw [hcf, hval]
    obtain ⟨item, hmem, hitem⟩ := List.any_eq_true.mp hA
    unfold isTentItem at hitem
    rw [Bool.or_eq_true, beq_iff_eq, beq_iff_eq] at hitem
    exact iff_of_true rfl ⟨item, hmem, hitem⟩
  · have hval : camperFootprint (equipmentList r.equipment) = "RV" := by
      unfold camperFootprint
      rw [if_neg hA]
    refine ⟨Or.inr (hcf.trans hval), by rw [hcf, hval]; decide, ?_, hne, hblank⟩
    rw [hcf, hval]
    refine iff_of_false (by decide) ?_
    rintro ⟨item, hmem, hitem⟩
    apply hA
    rw [List.any_eq_true]
    refine ⟨item, hmem, ?_⟩
    unfold isTentItem
    rw [Bool.or_eq_true, beq_iff_eq, beq_iff_eq]
    exact hitem

/-! ### Claim C3: the night expander -/

/-- Claim C3 (confirmed): for an occupied reservation with both dates
set, the expansion yields one night per calendar date of
`[arrival, departure)` — `(departure - arrival)` rows, a one-night
span tagged "single night", otherwise the first generated date tagged
"first night" and all later dates "continuing night" — and it yields
zero rows without error when `departure <= arrival`. -/
theorem c3_night_expander (r : Reservation) (a d : Int)
    (hocc : r.occupied = true) (ha : r.arrivalDate = some a)
    (hd : r.departureDate = some d) :
    [r].filter (fun x => x.occupied) = [r] ∧
    ∃ ns, expandReservation r = Except.ok ns ∧
      (d ≤ a → ns = []) ∧
      (a < d →
        ns.length = (d - a).toNat ∧
        ns.map (fun n => n.occupiedDate) =
          (List.range (d - a).toNat).map (fun (i : Nat) => a + (i : Int)) ∧
        (d - a = 1 → ∀ n ∈ ns, n.duration = "single night") ∧
        (1 < d - a → ∀ (i : Nat) (hi : i < ns.length),
          (ns.get ⟨i, hi⟩).duration =
            if i = 0 then "first night" else "continuing night")) := by
  refine ⟨by simp [hocc], ?_⟩
  unfold expandReservation
  rw [ha, hd]
  refine ⟨_, rfl, ?_, ?_⟩
  · intro hle
    have h0 : (d - a).toNat = 0 := Int.toNat_of_nonpos (by omega)
    simp [h0]
  · intro hlt
    refine ⟨by simp, ?_, ?_, ?_⟩
    · rw [List.map_map]
      rfl
    · intro h1 n hn
      obtain ⟨i, hi, rfl⟩ := List.mem_map.mp hn
      simp [h1]
    · intro hgt i hi
      have hlen : i < (List.range (d - a).toNat).length := by simpa using hi
      rw [List.get_eq_getElem, List.getElem_map, List.getElem_range]
      have hne1 : ¬(d - a = 1) := by omega
      by_cases hi0 : i = 0 <;> simp [hne1, hi0]

/-- Witness for `c3_night_expander`: a three-night occupied
reservation starting at day 20000. -/
def threeNightRes : Reservation :=
  { siteNumber := "B2", arrivalDate := some 20000,
    departureDate := some 20003, camperFootprint := "RV",
    observed := false, occupied := true, overnights := 3,
    occupants := 4, primaryOccupantName := "Smith, J." }

theorem c3_night_expander_witness :
    threeNightRes.occupied = true ∧
    threeNightRes.arrivalDate = some 20000 ∧
    threeNightRes.departureDate = some 20003 ∧
    ([threeNightRes].filter (fun x => x.occupied) = [threeNightRes] ∧
    ∃ ns, expandReservation threeNightRes = Except.ok ns ∧
      ((20003 : Int) ≤ 20000 → ns = []) ∧
      ((20000 : Int) < 20003 →
        ns.length = ((20003 : Int) - 20000).toNat ∧
        ns.map (fun n => n.occupiedDate) =
          (List.range ((20003 : Int) - 20000).toNat).map
            (fun (i : Nat) => (20000 : Int) + (i : Int)) ∧
        ((20003 : Int) - 20000 = 1 → ∀ n ∈ ns, n.duration = "single night") ∧
        (1 < (20003 : Int) - 20000 → ∀ (i : Nat) (hi : i < ns.length),
          (ns.get ⟨i, hi⟩).duration =
            if i = 0 then "first night" else "continuing night"))) :=
  ⟨rfl, rfl, rfl, c3_night_expander threeNightRes 20000 20003 rfl rfl rfl⟩

/-! ### Claim C4: null dates reaching the night expander -/

/-- The failing input for claim C4: a RESERVED row whose arrival date
was unparseable and hence coerced to `NaT`. -/
def nullArrivalRow : InputRow :=
  { siteNumber := "A7", reservationNum := "987654321",
    reservationStatus := "RESERVED", arrivalDate := none,
    departureDate := some 20003, primaryOccupantName := "Smith, J.",
    occupantsRaw := some 2, equipment := "RV", nightsDaysRaw := some 3 }

/-- Claim C4 is refuted by the code: an occupied reservation with a
null arrival date makes the night expander raise (pandas `date_range`
rejects a `NaT` endpoint) instead of contributing zero rows. -/
theorem c4_null_date_crash :
    (normalizeRow nullArrivalRow).occupied = true ∧
    (normalizeRow nullArrivalRow).arrivalDate = none ∧
    get_occupied_overnights [normalizeRow nullArrivalRow] =
      Except.error PipelineError.nullDateExpansion := by
  exact ⟨by decide, rfl, rfl⟩

/-! ### Claim C5: the busiest-day ranking -/

theorem argmaxFirst_eq_none_iff {α : Type} (f : α → Int) (l : List α) :
    argmaxFirst f l = none ↔ l = [] := by
  cases l with
  | nil => simp [argmaxFirst]
  | cons x xs =>
    simp only [argmaxFirst]
    cases argmaxFirst f xs with
    | none => simp
    | some y => by_cases h : f x < f y <;> simp [h]

/-- `argmaxFirst` returns an element of the list that bounds every
element from above and strictly exceeds everything before it. -/
theorem argmaxFirst_spec {α : Type} (f : α → Int) (l : List α) (y : α)
    (h : argmaxFirst f l = some y) :
    ∃ pre suf, l = pre ++ y :: suf ∧ (∀ x ∈ pre, f x < f y) ∧
      ∀ x ∈ l, f x ≤ f y := by
  induction l generalizing y with
  | nil => exact absurd h (by simp [argmaxFirst])
  | cons x xs ih =>
    simp only [argmaxFirst] at h
    cases hm : argmaxFirst f xs with
    | none =>
      rw [hm] at h
      simp only [Option.some.injEq] at h
      subst h
      have hnil : xs = [] := (argmaxFirst_eq_none_iff f xs).mp hm
      subst hnil
      exact ⟨[], [], rfl, by simp, by simp⟩
    | some z =>
      rw [hm] at h
      have h2 : (if f x < f z then some z else some x) = some y := h
      by_cases hlt : f x < f z
      · rw [if_pos hlt] at h2
        simp only [Option.some.injEq] at h2
        subst h2
        obtain ⟨pre, suf, hsplit, hpre, hall⟩ := ih _ hm
        refine ⟨x :: pre, suf, by rw [hsplit, List.cons_append], ?_, ?_⟩
        · intro t ht
          rcases List.mem_cons.mp ht with rfl | ht2
          · exact hlt
          · exact hpre t ht2
        · intro t ht
          rcases List.mem_cons.mp ht with rfl | ht2
          · exact le_of_lt hlt
          · exact hall t ht2
      · rw [if_neg hlt] at h2
        simp only [Option.some.injEq] at h2
        subst h2
        obtain ⟨pre, suf, hsplit, hpre, hall⟩ := ih z hm
        refine ⟨[], xs, rfl, by simp, ?_⟩
        intro t ht
        rcases List.mem_cons.mp ht with rfl | ht2
        · exact le_refl _
        · exact le_trans (hall t ht2) (not_lt.mp hlt)

theorem mem_sortedKeysNat (l : List Nat) (w : Nat) :
    w ∈ sortedKeysNat l ↔ w ∈ l := by
  unfold sortedKeysNat
  rw [(List.perm_insertionSort _ _).mem_iff, List.mem_dedup]

theorem sortedKeysNat_pairwise_lt (l : List Nat) :
    (sortedKeysNat l).Pairwise (fun a b => a < b) := by
  have h1 : List.Sorted (fun a b => a ≤ b) (sortedKeysNat l) :=
    List.sorted_insertionSort _ _
  have h2 : (sortedKeysNat l).Nodup :=
    (List.perm_insertionSort _ _).nodup_iff.mpr (List.nodup_dedup l)
  exact (h1.and h2).imp (fun hab => lt_of_le_of_ne hab.1 hab.2)

theorem filterMap_map_week {α β : Type} (g : α → Option β) (h : β → α)
    (l : List α) (H : ∀ a ∈ l, ∃ b, g a = some b ∧ h b = a) :
    (l.filterMap g).map h = l := by
  induction l with
  | nil => rfl
  | cons x xs ih =>
    obtain ⟨b, hb, hhb⟩ := H x (by simp)
    rw [List.filterMap_cons, hb, List.map_cons, hhb,
      ih (fun a ha => H a (by simp [ha]))]

/-- Claim C5 (confirmed): with the default weights (3, 2, 1) each
output row is built from a summary row of its week, carries
`weighted_occupants = 3 * first + 2 * single + 1 * continuing`
(absent category columns read as 0), is the first row of its week
attaining the maximal weighted score — so its score bounds every
same-week summary row — and the output has exactly one row per
distinct week, sorted strictly ascending by week number. -/
theorem c5_busiest_day (summary : List DailySummary) :
    ((busiest_day_of_week 3 2 1 summary).map (fun b => b.week)).Pairwise
        (fun a b => a < b)
    ∧ (∀ w, (∃ r ∈ summary, r.week = w) ↔
        ∃ b ∈ busiest_day_of_week 3 2 1 summary, b.week = w)
    ∧ (∀ b ∈ busiest_day_of_week 3 2 1 summary,
        ∃ pre suf r,
          summary.filter (fun x => x.week == b.week) = pre ++ r :: suf
          ∧ r.week = b.week
          ∧ b.weighted_occupants =
              3 * r.first_night_occupants.getD 0 +
                2 * r.single_night_occupants.getD 0 +
                1 * r.continuing_night_occupants.getD 0
          ∧ b.occupiedDate = r.occupiedDate
          ∧ (∀ x ∈ pre,
              weightedOccupants 3 2 1 x < weightedOccupants 3 2 1 r)
          ∧ ∀ r2 ∈ summary, r2.week = b.week →
              weightedOccupants 3 2 1 r2 ≤ b.weighted_occupants) := by
  have hprod : ∀ w ∈ sortedKeysNat (summary.map (fun r => r.week)),
      ∃ b, (argmaxFirst (weightedOccupants 3 2 1)
          (summary.filter (fun r => r.week == w))).map (fun r =>
        ({ week := r.week
           occupiedDate := r.occupiedDate
           total_occupants := r.total_occupants
           first_night_occupants := r.first_night_occupants
           single_night_occupants := r.single_night_occupants
           continuing_night_occupants := r.continuing_night_occupants
           weighted_occupants := weightedOccupants 3 2 1 r } : BusiestDay)) =
        some b ∧ b.week = w := by
    intro w hw
    rw [mem_sortedKeysNat] at hw
    obtain ⟨r, hr, hrw⟩ := List.mem_map.mp hw
    have hrf : r ∈ summary.filter (fun r => r.week == w) :=
      List.mem_filter.mpr ⟨hr, by simp [hrw]⟩
    have hne : summary.filter (fun r => r.week == w) ≠ [] :=
      fun hcon => by rw [hcon] at hrf; exact absurd hrf (by simp)
    cases hm : argmaxFirst (weightedOccupants 3 2 1)
        (summary.filter (fun r => r.week == w)) with
    | none => exact absurd ((argmaxFirst_eq_none_iff _ _).mp hm) hne
    | some r2 =>
      obtain ⟨pre, suf, hsplit, hpre2, hall⟩ := argmaxFirst_spec _ _ _ hm
      have hr2f : r2 ∈ summary.filter (fun r => r.week == w) := by
        rw [hsplit]; simp
      have hr2w : r2.week = w := by
        have := (List.mem_filter.mp hr2f).2
        simpa using this
      exact ⟨_, rfl, hr2w⟩
  have hdef : busiest_day_of_week 3 2 1 summary =
      (sortedKeysNat (summary.map (fun r => r.week))).filterMap (fun w =>
        (argmaxFirst (weightedOccupants 3 2 1)
            (summary.filter (fun r => r.week == w))).map (fun r =>
          { week := r.week
            occupiedDate := r.occupiedDate
            total_occupants := r.total_occupants
            first_night_occupants := r.first_night_occupants
            single_night_occupants := r.single_night_occupants
            continuing_night_occupants := r.continuing_night_occupants
            weighted_occupants := weightedOccupants 3 2 1 r })) := rfl
  refine ⟨?_, ?_, ?_⟩
  · rw [hdef, filterMap_map_week _ _ _ hprod]
    exact sortedKeysNat_pairwise_lt _
  · intro w
    constructor
    · rintro ⟨r, hr, hrw⟩
      have hw : w ∈ sortedKeysNat (summary.map (fun r => r.week)) := by
        rw [mem_sortedKeysNat]
        exact List.mem_map.mpr ⟨r, hr, hrw⟩
      obtain ⟨b, hgb, hbw⟩ := hprod w hw
      refine ⟨b, ?_, hbw⟩
      rw [hdef]
      exact List.mem_filterMap.mpr ⟨w, hw, hgb⟩
    · rintro ⟨b, hb, hbw⟩
      rw [hdef] at hb
      obtain ⟨w2, hw2, hg⟩ := List.mem_filterMap.mp hb
      obtain ⟨r2, hm, hmk⟩ := Option.map_eq_some'.mp hg
      have hr2f := argmaxFirst_spec _ _ _ hm
      obtain ⟨pre, suf, hsplit, hpre2, hall⟩ := hr2f
      have hr2mem : r2 ∈ summary.filter (fun r => r.week == w2) := by
        rw [hsplit]; simp
      obtain ⟨hr2s, hr2w⟩ := List.mem_filter.mp hr2mem
      refine ⟨r2, hr2s, ?_⟩
      rw [← hbw, ← hmk]
  · intro b hb
    rw [hdef] at hb
    obtain ⟨w2, hw2, hg⟩ := List.mem_filterMap.mp hb
    obtain ⟨r2, hm, hmk⟩ := Option.map_eq_some'.mp hg
    obtain ⟨pre, suf, hsplit, hpre2, hall⟩ := argmaxFirst_spec _ _ _ hm
    have hr2mem : r2 ∈ summary.filter (fun r => r.week == w2) := by
      rw [hsplit]; simp
    obtain ⟨hr2s, hr2wb⟩ := List.mem_filter.mp hr2mem
    have hr2w : r2.week = w2 := by simpa using hr2wb
    have hbweek : b.week = w2 := by rw [← hmk]; exact hr2w
    refine ⟨pre, suf, r2, ?_, ?_, ?_, ?_, hpre2, ?_⟩
    · rw [hbweek]
      exact hsplit
    · rw [hbweek]
      exact hr2w
    · rw [← hmk]
      rfl
    · rw [← hmk]
    · intro r3 hr3 hr3w
      have hr3f : r3 ∈ summary.filter (fun r => r.week == w2) :=
        List.mem_filter.mpr ⟨hr3, by simp [hr3w, hbweek]⟩
      have := hall r3 hr3f
      rw [← hmk]
      exact this

/-! ### Claim C6: header location -/

theorem rowHasAllRequired_iff (row : List String) :
    rowHasAllRequired row = true ↔ ∀ c ∈ required_columns, c ∈ row := by
  unfold rowHasAllRequired
  rw [List.all_eq_true]
  constructor
  · intro h c hc
    have := h c hc
    simpa using this
  · intro h c hc
    have := h c hc
    simpa using this

theorem header_row_index_aux_none_iff (g : Grid) :
    header_row_index_aux g = none ↔
      ∀ row ∈ g, rowHasAllRequired row = false := by
  induction g with
  | nil => simp [header_row_index_aux]
  | cons row rest ih =>
    unfold header_row_index_aux
    by_cases h : rowHasAllRequired row = true
    · simp [h, List.forall_mem_cons]
    · have hf : rowHasAllRequired row = false := by
        cases hb : rowHasAllRequired row
        · rfl
        · exact absurd hb h
      rw [if_neg h]
      simp [List.forall_mem_cons, hf, ih]

theorem header_row_index_aux_some (g : Grid) (i : Nat)
    (h : header_row_index_aux g = some i) :
    ∃ row, g.get? i = some row ∧ rowHasAllRequired row = true ∧
      ∀ j, j < i → ∀ y, g.get? j = some y →
        rowHasAllRequired y = false := by
  induction g generalizing i with
  | nil => simp [header_row_index_aux] at h
  | cons row rest ih =>
    unfold header_row_index_aux at h
    by_cases hr : rowHasAllRequired row = true
    · rw [if_pos hr] at h
      simp only [Option.some.injEq] at h
      subst h
      exact ⟨row, rfl, hr, fun j hj => absurd hj (Nat.not_lt_zero j)⟩
    · rw [if_neg hr] at h
      have hf : rowHasAllRequired row = false := by
        cases hb : rowHasAllRequired row
        · rfl
        · exact absurd hb hr
      obtain ⟨i2, hi2, hieq⟩ := Option.map_eq_some'.mp h
      subst hieq
      obtain ⟨row2, hget, hok, hprev⟩ := ih i2 hi2
      refine ⟨row2, hget, hok, ?_⟩
      intro j hj y hgety
      cases j with
      | zero =>
        have hy : row = y := Option.some.inj hgety
        rw [← hy]
        exact hf
      | succ j2 =>
        exact hprev j2 (by omega) y hgety

/-- Claim C6 (confirmed): for a nonempty grid, the header stage fails
with the schema error exactly when no row's cells contain all ten
required column labels or when the first such row is row 0; on
success, the working row set is exactly the rows strictly after the
first matching row. -/
theorem c6_header_location (g : Grid) (hg : g ≠ []) :
    required_columns.length = 10 ∧
    (locate_header g = Except.error PipelineError.headerNotFound ↔
      (¬ ∃ row ∈ g, ∀ c ∈ required_columns, c ∈ row) ∨
        (∃ row0, g.head? = some row0 ∧ ∀ c ∈ required_columns, c ∈ row0)) ∧
    (∀ rows, locate_header g = Except.ok rows →
      ∃ i, header_row_index_aux g = some i ∧ 0 < i ∧
        rows = g.drop (i + 1) ∧
        ∃ row, g.get? i = some row ∧ (∀ c ∈ required_columns, c ∈ row) ∧
          ∀ j, j < i → ∀ y, g.get? j = some y →
            ¬ ∀ c ∈ required_columns, c ∈ y) := by
  have hgis : g.isEmpty = false := by
    cases g with
    | nil => exact absurd rfl hg
    | cons a t => rfl
  have hloc : locate_header g =
      if header_row_index g = 0 then Except.error PipelineError.headerNotFound
      else Except.ok (g.drop (header_row_index g + 1)) := by
    unfold locate_header
    rw [hgis]
    simp only [Bool.false_eq_true, if_false]
  have hidx : header_row_index g = (header_row_index_aux g).getD 0 := rfl
  refine ⟨rfl, ?_, ?_⟩
  · cases haux : header_row_index_aux g with
    | none =>
      have h0 : header_row_index g = 0 := by rw [hidx, haux]; rfl
      rw [hloc, if_pos h0]
      refine iff_of_true rfl (Or.inl ?_)
      rintro ⟨row, hrow, hall⟩
      have := (header_row_index_aux_none_iff g).mp haux row hrow
      rw [(rowHasAllRequired_iff row).mpr hall] at this
      exact Bool.noConfusion this
    | some i =>
      cases i with
      | zero =>
        have h0 : header_row_index g = 0 := by rw [hidx, haux]; rfl
        rw [hloc, if_pos h0]
        obtain ⟨row, hget, hok, _⟩ := header_row_index_aux_some g 0 haux
        refine iff_of_true rfl (Or.inr ⟨row, ?_, (rowHasAllRequired_iff row).mp hok⟩)
        cases g with
        | nil => exact absurd rfl hg
        | cons a t => exact hget
      | succ i2 =>
        have h0 : header_row_index g = i2 + 1 := by rw [hidx, haux]; rfl
        rw [hloc, if_neg (by omega : ¬(header_row_index g = 0))]
        refine iff_of_false (fun hcon => Except.noConfusion hcon) ?_
        rintro (hnone | ⟨row0, hhead, hall0⟩)
        · obtain ⟨row, hget, hok, _⟩ :=
            header_row_index_aux_some g (i2 + 1) haux
          exact hnone ⟨row, List.get?_mem hget,
            (rowHasAllRequired_iff row).mp hok⟩
        · cases g with
          | nil => exact absurd rfl hg
          | cons a t =>
            have ha : a = row0 := Option.some.inj hhead
            have hok0 : rowHasAllRequired a = true := by
              rw [ha]
              exact (rowHasAllRequired_iff row0).mpr hall0
            have : header_row_index_aux (a :: t) = some 0 := by
              unfold header_row_index_aux
              rw [if_pos hok0]
            rw [haux] at this
            exact absurd (Option.some.inj this) (by omega)
  · intro rows hrows
    cases haux : header_row_index_aux g with
    | none =>
      have h0 : header_row_index g = 0 := by rw [hidx, haux]; rfl
      rw [hloc, if_pos h0] at hrows
      exact Except.noConfusion hrows
    | some i =>
      cases i with
      | zero =>
        have h0 : header_row_index g = 0 := by rw [hidx, haux]; rfl
        rw [hloc, if_pos h0] at hrows
        exact Except.noConfusion hrows
      | succ i2 =>
        have h0 : header_row_index g = i2 + 1 := by rw [hidx, haux]; rfl
        rw [hloc, if_neg (by omega : ¬(header_row_index g = 0))] at hrows
        have hrows2 : rows = g.drop (i2 + 1 + 1) := by
          have := Except.ok.inj hrows
          rw [← this, h0]
        obtain ⟨row, hget, hok, hprev⟩ :=
          header_row_index_aux_some g (i2 + 1) haux
        refine ⟨i2 + 1, rfl, by omega, hrows2, row, hget,
          (rowHasAllRequired_iff row).mp hok, ?_⟩
        intro j hj y hgety hall
        have := hprev j hj y hgety
        rw [(rowHasAllRequired_iff y).mpr hall] at this
        exact Bool.noConfusion this

/-- The concrete grid of the C6 witness: one preamble row, the header
row (the ten required labels themselves) at index 1, one data row. -/
def demoGrid : Grid :=
  [["Location: South Rim Campground"],
   required_columns,
   ["A", "A1", "123456789", "RESERVED", "07/08", "07/09", "Smith, J.",
    "2", "Tent (1)", "1"]]

theorem c6_header_location_witness :
    demoGrid ≠ [] ∧
    (required_columns.length = 10 ∧
    (locate_header demoGrid = Except.error PipelineError.headerNotFound ↔
      (¬ ∃ row ∈ demoGrid, ∀ c ∈ required_columns, c ∈ row) ∨
        (∃ row0, demoGrid.head? = some row0 ∧
          ∀ c ∈ required_columns, c ∈ row0)) ∧
    (∀ rows, locate_header demoGrid = Except.ok rows →
      ∃ i, header_row_index_aux demoGrid = some i ∧ 0 < i ∧
        rows = demoGrid.drop (i + 1) ∧
        ∃ row, demoGrid.get? i = some row ∧
          (∀ c ∈ required_columns, c ∈ row) ∧
          ∀ j, j < i → ∀ y, demoGrid.get? j = some y →
            ¬ ∀ c ∈ required_columns, c ∈ y)) :=
  ⟨List.cons_ne_nil _ _, c6_header_location demoGrid (List.cons_ne_nil _ _)⟩

/-! ### Claim C7: daily totals -/

theorem sum_filter_eq_sum_ite {α : Type} (p : α → Bool) (f : α → Int)
    (l : List α) :
    ((l.filter p).map f).sum =
      (l.map (fun x => if p x = true then f x else 0)).sum := by
  induction l with
  | nil => rfl
  | cons x xs ih =>
    by_cases h : p x = true
    · simp [List.filter_cons, h, ih]
    · simp [List.filter_cons, h, ih]

theorem mem_sortedKeys (l : List Int) (x : Int) :
    x ∈ sortedKeys l ↔ x ∈ l := by
  unfold sortedKeys
  rw [(List.perm_insertionSort _ _).mem_iff, List.mem_dedup]

/-- Claim C7 (confirmed): for every date present in the fact table,
the unique summary row of that date has `total_occupants` equal to the
sum of `occupants` over the rows of that date and `total_sites` equal
to the number of distinct `siteNumber` values among them. -/
theorem c7_daily_totals (ns : List OccupiedNight) (dt : Int)
    (h : dt ∈ ns.map (fun n => n.occupiedDate)) :
    ∃ row ∈ summarize_reservations ns,
      row.occupiedDate = dt ∧
      row.total_occupants =
        (ns.map (fun n =>
          if n.occupiedDate = dt then n.occupants else 0)).sum ∧
      row.total_sites =
        ((ns.filter (fun n => n.occupiedDate == dt)).map
          (fun n => n.siteNumber)).toFinset.card ∧
      ∀ row2 ∈ summarize_reservations ns,
        row2.occupiedDate = dt → row2 = row := by
  have hdt : dt ∈ sortedKeys (ns.map (fun n => n.occupiedDate)) := by
    rw [mem_sortedKeys]
    exact h
  refine ⟨buildDailySummary ns dt,
    List.mem_map.mpr ⟨dt, hdt, rfl⟩, rfl, ?_, ?_, ?_⟩
  · show ((ns.filter (fun n => n.occupiedDate == dt)).map
      (fun n => n.occupants)).sum = _
    rw [sum_filter_eq_sum_ite]
    simp only [beq_iff_eq]
  · show nunique ((ns.filter (fun n => n.occupiedDate == dt)).map
      (fun n => n.siteNumber)) = _
    rw [List.card_toFinset]
    rfl
  · intro row2 hrow2 hdate2
    obtain ⟨dt2, _, hbuild⟩ := List.mem_map.mp hrow2
    have : dt2 = dt := by
      rw [← hbuild] at hdate2
      exact hdate2
    rw [← hbuild, this]

/-- Witness for `c7_daily_totals`: two nights on day 20000 sharing the
site number and one night on day 20001. -/
def demoNights : List OccupiedNight :=
  [{ occupiedDate := 20000, siteNumber := "A1", camperFootprint := "tent",
     occupants := 2, duration := "first night" },
   { occupiedDate := 20000, siteNumber := "A1", camperFootprint := "RV",
     occupants := 3, duration := "single night" },
   { occupiedDate := 20001, siteNumber := "B2", camperFootprint := "RV",
     occupants := 5, duration := "continuing night" }]

theorem c7_daily_totals_witness :
    (20000 : Int) ∈ demoNights.map (fun n => n.occupiedDate) ∧
    ∃ row ∈ summarize_reservations demoNights,
      row.occupiedDate = 20000 ∧
      row.total_occupants =
        (demoNights.map (fun n =>
          if n.occupiedDate = 20000 then n.occupants else 0)).sum ∧
      row.total_sites =
        ((demoNights.filter (fun n => n.occupiedDate == 20000)).map
          (fun n => n.siteNumber)).toFinset.card ∧
      ∀ row2 ∈ summarize_reservations demoNights,
        row2.occupiedDate = 20000 → row2 = row :=
  ⟨by decide, c7_daily_totals demoNights 20000 (by decide)⟩

/-! ### Claim C8: category columns of the daily summary -/

/-- Claim C8 as stated is false: an input whose occupied nights are
all RV-footprint produces a daily summary with no tent-sites column at
all — the field is absent (`none`) rather than 0. -/
theorem c8_counterexample :
    (summarize_reservations
      [{ occupiedDate := 20000, siteNumber := "A1", camperFootprint := "RV",
         occupants := 2, duration := "single night" }]).map
      (fun row => row.tent_sites) = [none] := by
  rfl

theorem filter_filter_eq_nil {α : Type} {p q : α → Bool} (l : List α)
    (h : ∀ x ∈ l, p x = true → q x = false) :
    (l.filter p).filter q = [] := by
  rw [List.filter_eq_nil_iff]
  intro x hx
  obtain ⟨hl, hp⟩ := List.mem_filter.mp hx
  simp [h x hl hp]

theorem buildDailySummary_occupiedDate (ns : List OccupiedNight) (dt : Int) :
    (buildDailySummary ns dt).occupiedDate = dt := rfl

theorem buildDailySummary_tent_sites (ns : List OccupiedNight) (dt : Int) :
    (buildDailySummary ns dt).tent_sites =
      if ns.any (fun n => n.camperFootprint == "tent") then
        some (nunique (((ns.filter (fun n => n.occupiedDate == dt)).filter
          (fun n => n.camperFootprint == "tent")).map (fun n => n.siteNumber)))
      else none := rfl

theorem buildDailySummary_rv_sites (ns : List OccupiedNight) (dt : Int) :
    (buildDailySummary ns dt).rv_sites =
      if ns.any (fun n => n.camperFootprint == "RV") then
        some (nunique (((ns.filter (fun n => n.occupiedDate == dt)).filter
          (fun n => n.camperFootprint == "RV")).map (fun n => n.siteNumber)))
      else none := rfl

theorem buildDailySummary_first_night_occupants (ns : List OccupiedNight) (dt : Int) :
    (buildDailySummary ns dt).first_night_occupants =
      if ns.any (fun n => n.duration == "first night") then
        some ((((ns.filter (fun n => n.occupiedDate == dt)).filter
          (fun n => n.duration == "first night")).map (fun n => n.occupants)).sum)
      else none := rfl

theorem buildDailySummary_single_night_occupants (ns : List OccupiedNight) (dt : Int) :
    (buildDailySummary ns dt).single_night_occupants =
      if ns.any (fun n => n.duration == "single night") then
        some ((((ns.filter (fun n => n.occupiedDate == dt)).filter
          (fun n => n.duration == "single night")).map (fun n => n.occupants)).sum)
      else none := rfl

theorem buildDailySummary_continuing_night_occupants (ns : List OccupiedNight) (dt : Int) :
    (buildDailySummary ns dt).continuing_night_occupants =
      if ns.any (fun n => n.duration == "continuing night") then
        some ((((ns.filter (fun n => n.occupiedDate == dt)).filter
          (fun n => n.duration == "continuing night")).map (fun n => n.occupants)).sum)
      else none := rfl

/-- Claim C8 (amended): a footprint or duration-class field of a
summary row is a numeric value on every row provided that category
occurs somewhere in the fact table, and it is 0 on a date with no rows
of that category; a category absent from the whole table yields no
column at all (every row reads `none` for it). -/
theorem c8_category_fill (ns : List OccupiedNight) (row : DailySummary)
    (hrow : row ∈ summarize_reservations ns) :
    ((∃ n ∈ ns, n.camperFootprint = "tent") →
      ∃ k, row.tent_sites = some k ∧
        ((∀ n ∈ ns, n.occupiedDate = row.occupiedDate →
            n.camperFootprint ≠ "tent") → k = 0))
    ∧ ((∃ n ∈ ns, n.camperFootprint = "RV") →
      ∃ k, row.rv_sites = some k ∧
        ((∀ n ∈ ns, n.occupiedDate = row.occupiedDate →
            n.camperFootprint ≠ "RV") → k = 0))
    ∧ ((∃ n ∈ ns, n.duration = "first night") →
      ∃ k, row.first_night_occupants = some k ∧
        ((∀ n ∈ ns, n.occupiedDate = row.occupiedDate →
            n.duration ≠ "first night") → k = 0))
    ∧ ((∃ n ∈ ns, n.duration = "single night") →
      ∃ k, row.single_night_occupants = some k ∧
        ((∀ n ∈ ns, n.occupiedDate = row.occupiedDate →
            n.duration ≠ "single night") → k = 0))
    ∧ ((∃ n ∈ ns, n.duration = "continuing night") →
      ∃ k, row.continuing_night_occupants = some k ∧
        ((∀ n ∈ ns, n.occupiedDate = row.occupiedDate →
            n.duration ≠ "continuing night") → k = 0)) := by
  obtain ⟨dt, hdtmem, hbuild⟩ := List.mem_map.mp hrow
  have hdate : row.occupiedDate = dt := by
    rw [← hbuild, buildDailySummary_occupiedDate]
  refine ⟨?_, ?_, ?_, ?_, ?_⟩
  · rintro ⟨n, hn, hcat⟩
    have hAny : ns.any (fun n => n.camperFootprint == "tent") = true :=
      List.any_eq_true.mpr ⟨n, hn, by simp [hcat]⟩
    have hval : row.tent_sites =
        some (nunique (((ns.filter (fun n => n.occupiedDate == dt)).filter
          (fun n => n.camperFootprint == "tent")).map (fun n => n.siteNumber))) := by
      rw [← hbuild, buildDailySummary_tent_sites, if_pos hAny]
    refine ⟨_, hval, ?_⟩
    intro hnone
    have hnil : ((ns.filter (fun n => n.occupiedDate == dt)).filter
        (fun n => n.camperFootprint == "tent")) = [] := by
      apply filter_filter_eq_nil
      intro x hx hp
      have hxd : x.occupiedDate = row.occupiedDate := by
        rw [hdate]
        simpa using hp
      simpa using hnone x hx hxd
    rw [hnil]
    rfl
  · rintro ⟨n, hn, hcat⟩
    have hAny : ns.any (fun n => n.camperFootprint == "RV") = true :=
      List.any_eq_true.mpr ⟨n, hn, by simp [hcat]⟩
    have hval : row.rv_sites =
        some (nunique (((ns.filter (fun n => n.occupiedDate == dt)).filter
          (fun n => n.camperFootprint == "RV")).map (fun n => n.siteNumber))) := by
      rw [← hbuild, buildDailySummary_rv_sites, if_pos hAny]
    refine ⟨_, hval, ?_⟩
    intro hnone
    have hnil : ((ns.filter (fun n => n.occupiedDate == dt)).filter
        (fun n => n.camperFootprint == "RV")) = [] := by
      apply filter_filter_eq_nil
      intro x hx hp
      have hxd : x.occupiedDate = row.occupiedDate := by
        rw [hdate]
        simpa using hp
      simpa using hnone x hx hxd
    rw [hnil]
    rfl
  · rintro ⟨n, hn, hcat⟩
    have hAny : ns.any (fun n => n.duration == "first night") = true :=
      List.any_eq_true.mpr ⟨n, hn, by simp [hcat]⟩
    have hval : row.first_night_occupants =
        some ((((ns.filter (fun n => n.occupiedDate == dt)).filter
          (fun n => n.duration == "first night")).map (fun n => n.occupants)).sum) := by
      rw [← hbuild, buildDailySummary_first_night_occupants, if_pos hAny]
    refine ⟨_, hval, ?_⟩
    intro hnone
    have hnil : ((ns.filter (fun n => n.occupiedDate == dt)).filter
        (fun n => n.duration == "first night")) = [] := by
      apply filter_filter_eq_nil
      intro x hx hp
      have hxd : x.occupiedDate = row.occupiedDate := by
        rw [hdate]
        simpa using hp
      simpa using hnone x hx hxd
    rw [hnil]
    rfl
  · rintro ⟨n, hn, hcat⟩
    have hAny : ns.any (fun n => n.duration == "single night") = true :=
      List.any_eq_true.mpr ⟨n, hn, by simp [hcat]⟩
    have hval : row.single_night_occupants =
        some ((((ns.filter (fun n => n.occupiedDate == dt)).filter
          (fun n => n.duration == "single night")).map (fun n => n.occupants)).sum) := by
      rw [← hbuild, buildDailySummary_single_night_occupants, if_pos hAny]
    refine ⟨_, hval, ?_⟩
    intro hnone
    have hnil : ((ns.filter (fun n => n.occupiedDate == dt)).filter
        (fun n => n.duration == "single night")) = [] := by
      apply filter_filter_eq_nil
      intro x hx hp
      have hxd : x.occupiedDate = row.occupiedDate := by
        rw [hdate]
        simpa using hp
      simpa using hnone x hx hxd
    rw [hnil]
    rfl
  · rintro ⟨n, hn, hcat⟩
    have hAny : ns.any (fun n => n.duration == "continuing night") = true :=
      List.any_eq_true.mpr ⟨n, hn, by simp [hcat]⟩
    have hval : row.continuing_night_occupants =
        some ((((ns.filter (fun n => n.occupiedDate == dt)).filter
          (fun n => n.duration == "continuing night")).map (fun n => n.occupants)).sum) := by
      rw [← hbuild, buildDailySummary_continuing_night_occupants, if_pos hAny]
    refine ⟨_, hval, ?_⟩
    intro hnone
    have hnil : ((ns.filter (fun n => n.occupiedDate == dt)).filter
        (fun n => n.duration == "continuing night")) = [] := by
      apply filter_filter_eq_nil
      intro x hx hp
      have hxd : x.occupiedDate = row.occupiedDate := by
        rw [hdate]
        simpa using hp
      simpa using hnone x hx hxd
    rw [hnil]
    rfl

/-- Witness for `c8_category_fill` at the day-20001 row of
`demoNights`: tent nights exist in the table but not on day 20001. -/
theorem c8_category_fill_witness :
    buildDailySummary demoNights 20001 ∈ summarize_reservations demoNights ∧
    (((∃ n ∈ demoNights, n.camperFootprint = "tent") →
      ∃ k, (buildDailySummary demoNights 20001).tent_sites = some k ∧
        ((∀ n ∈ demoNights,
            n.occupiedDate = (buildDailySummary demoNights 20001).occupiedDate →
            n.camperFootprint ≠ "tent") → k = 0))
    ∧ ((∃ n ∈ demoNights, n.camperFootprint = "RV") →
      ∃ k, (buildDailySummary demoNights 20001).rv_sites = some k ∧
        ((∀ n ∈ demoNights,
            n.occupiedDate = (buildDailySummary demoNights 20001).occupiedDate →
            n.camperFootprint ≠ "RV") → k = 0))
    ∧ ((∃ n ∈ demoNights, n.duration = "first night") →
      ∃ k, (buildDailySummary demoNights 20001).first_night_occupants = some k ∧
        ((∀ n ∈ demoNights,
            n.occupiedDate = (buildDailySummary demoNights 20001).occupiedDate →
            n.duration ≠ "first night") → k = 0))
    ∧ ((∃ n ∈ demoNights, n.duration = "single night") →
      ∃ k, (buildDailySummary demoNights 20001).single_night_occupants = some k ∧
        ((∀ n ∈ demoNights,
            n.occupiedDate = (buildDailySummary demoNights 20001).occupiedDate →
            n.duration ≠ "single night") → k = 0))
    ∧ ((∃ n ∈ demoNights, n.duration = "continuing night") →
      ∃ k, (buildDailySummary demoNights 20001).continuing_night_occupants =
          some k ∧
        ((∀ n ∈ demoNights,
            n.occupiedDate = (buildDailySummary demoNights 20001).occupiedDate →
            n.duration ≠ "continuing night") → k = 0))) :=
  ⟨by decide,
    c8_category_fill demoNights (buildDailySummary demoNights 20001) (by decide)⟩

/-! ### Claim C9: empty result sets -/

/-- The failing input for claim C9: a cancelled reservation, not
occupied, so the expansion produces no per-night rows at all. -/
def cancelledRow : InputRow :=
  { siteNumber := "C3", reservationNum := "555555555",
    reservationStatus := "CANCELLED", arrivalDate := some 20000,
    departureDate := some 20002, primaryOccupantName := "Jones, B.",
    occupantsRaw := some 2, equipment := "RV", nightsDaysRaw := some 2 }

/-- Claim C9 is refuted by the code in its first half: an input whose
rows yield zero occupied nights does not complete with empty tables —
building the per-night table raises (column selection on an empty
frame).  The second half holds: the placard guard reports that there
is nothing to generate over an empty eligible record set. -/
theorem c9_empty_pipeline_crash :
    (normalizeRow cancelledRow).occupied = false ∧
    get_occupied_overnights [normalizeRow cancelledRow] =
      Except.error PipelineError.emptyExpansion ∧
    placardGate ([] : List Reservation) =
      Except.error PipelineError.noPlacardRecords := by
  exact ⟨by decide, rfl, rfl⟩

/-! ### Claim C10: no partial outputs on early failure -/

theorem expandReservation_error (r : Reservation) (e : PipelineError)
    (h : expandReservation r = Except.error e) :
    e = PipelineError.nullDateExpansion := by
  unfold expandReservation at h
  cases ha : r.arrivalDate <;> cases hd : r.departureDate <;> rw [ha, hd] at h
  · exact (Except.error.inj h).symm
  · exact (Except.error.inj h).symm
  · exact (Except.error.inj h).symm
  · exact Except.noConfusion h

theorem expandAll_error (rs : List Reservation) (e : PipelineError)
    (h : expandAll rs = Except.error e) :
    e = PipelineError.nullDateExpansion := by
  induction rs with
  | nil => exact Except.noConfusion h
  | cons r rest ih =>
    unfold expandAll at h
    cases hr : expandReservation r with
    | error e2 =>
      rw [hr] at h
      have h2 : (Except.error e2 : Except PipelineError (List OccupiedNight)) =
          Except.error e := h
      obtain rfl := Except.error.inj h2
      exact expandReservation_error r e2 hr
    | ok ns =>
      rw [hr] at h
      cases hall : expandAll rest with
      | error e3 =>
        rw [hall] at h
        have h2 : (Except.error e3 : Except PipelineError (List OccupiedNight)) =
            Except.error e := h
        obtain rfl := Except.error.inj h2
        exact ih hall
      | ok rest2 =>
        rw [hall] at h
        exact Except.noConfusion h

theorem get_occupied_overnights_error (rs : List Reservation)
    (e : PipelineError)
    (h : get_occupied_overnights rs = Except.error e) :
    e = PipelineError.nullDateExpansion ∨
      e = PipelineError.emptyExpansion := by
  unfold get_occupied_overnights at h
  cases hx : expandAll (rs.filter (fun r => r.occupied)) with
  | error e2 =>
    rw [hx] at h
    have h2 : (Except.error e2 : Except PipelineError (List OccupiedNight)) =
        Except.error e := h
    obtain rfl := Except.error.inj h2
    exact Or.inl (expandAll_error _ _ hx)
  | ok nights =>
    rw [hx] at h
    have h2 : (if nights.isEmpty = true then
        Except.error PipelineError.emptyExpansion
      else Except.ok nights) = Except.error e := h
    by_cases hn : nights.isEmpty = true
    · rw [if_pos hn] at h2
      exact Or.inr (Except.error.inj h2).symm
    · rw [if_neg hn] at h2
      exact Except.noConfusion h2

/-- Claim C10 (confirmed): when construction fails at the header stage
(including the empty-grid case) or at the PII gate, none of the four
canonical tables has been set on the object. -/
theorem c10_no_partial_outputs (g : Grid)
    (typeRows : List (List String) → List InputRow) (sampled : List String)
    (st : ResState) (e : PipelineError)
    (hrun : reservationsInit g typeRows sampled = (st, some e))
    (he : e = PipelineError.headerNotFound ∨ e = PipelineError.emptyGrid ∨
      e = PipelineError.privacyValidation) :
    st.reservations = none ∧ st.occupied_reservations_by_day = none ∧
      st.daily_reservation_summary = none ∧ st.busiest_days = none := by
  unfold reservationsInit at hrun
  cases hl : locate_header g with
  | error e1 =>
    rw [hl] at hrun
    have h2 : (initState, some e1) = (st, some e) := hrun
    injection h2 with hst hopt
    rw [← hst]
    exact ⟨rfl, rfl, rfl, rfl⟩
  | ok rawRows =>
    rw [hl] at hrun
    have hrun1 : initAfterHeader (typeRows rawRows) sampled =
        (st, some e) := hrun
    unfold initAfterHeader at hrun1
    cases hp : piiCheck sampled with
    | error e2 =>
      rw [hp] at hrun1
      have h2 : ({ initState with
          original_data := some (typeRows rawRows) }, some e2) =
          (st, some e) := hrun1
      injection h2 with hst hopt
      rw [← hst]
      exact ⟨rfl, rfl, rfl, rfl⟩
    | ok u =>
      rw [hp] at hrun1
      have hrun2 : initAfterPii (typeRows rawRows) = (st, some e) := hrun1
      unfold initAfterPii at hrun2
      cases hg2 : get_occupied_overnights
          ((typeRows rawRows).map normalizeRow) with
      | error e3 =>
        rw [hg2] at hrun2
        have h2 : ({ initState with
            original_data := some (typeRows rawRows)
            reservations := some ((typeRows rawRows).map normalizeRow) },
            some e3) = (st, some e) := hrun2
        injection h2 with hst hopt
        have he3 : e3 = e := Option.some.inj hopt
        have hkinds := get_occupied_overnights_error _ _ hg2
        rw [he3] at hkinds
        rcases he with rfl | rfl | rfl <;>
          rcases hkinds with hk | hk <;> exact PipelineError.noConfusion hk
      | ok ns =>
        rw [hg2] at hrun2
        have h2 : (({ original_data := some (typeRows rawRows),
                      reservations :=
                        some ((typeRows rawRows).map normalizeRow),
                      occupied_reservations_by_day := some ns,
                      daily_reservation_summary :=
                        some (summarize_reservations ns),
                      busiest_days := some (busiest_day_of_week 3 2 1
                        (summarize_reservations ns)) } : ResState),
            (none : Option PipelineError)) = (st, some e) := hrun2
        injection h2 with hst hopt
        exact Option.noConfusion hopt

/-- Witness for `c10_no_partial_outputs`: a one-row grid with no
header row, failing with the schema error at the header stage. -/
theorem c10_no_partial_outputs_witness :
    reservationsInit [["x"]] (fun _ => []) [] =
      (initState, some PipelineError.headerNotFound) ∧
    (initState.reservations = none ∧
      initState.occupied_reservations_by_day = none ∧
      initState.daily_reservation_summary = none ∧
      initState.busiest_days = none) :=
  ⟨rfl, c10_no_partial_outputs [["x"]] (fun _ => []) [] initState
    PipelineError.headerNotFound rfl (Or.inl rfl)⟩

end Pyfedcamp
